import Mathlib

/-!
Verification development for the MaxScale connection-and-session core
(`server/core/session.cc`, `include/maxscale/dcb.hh`).

The C++ session and DCB operations are shallowly embedded as pure Lean
functions over explicit state records.  Buffers (`GWBUF*`) are modelled by
their content identity as natural numbers, except in the DCB read-queue
section where a buffer is a list of bytes so that concatenation
(`gwbuf_append`) is expressible.  Side effects on the client connection
(writes, DCB close, upstream `clientReply` invocations) are modelled as an
explicit event trace returned next to the updated state.  Debug-only
`mxb_assert` checks (compiled out in release builds) are modelled either as
a returned boolean (when the claim is about the assertion) or noted in the
doc comment of the embedding.
-/

set_option maxRecDepth 4000

namespace MaxScale

/-- Session states of `MXS_SESSION::State` (CREATED, STARTED, STOPPING,
FAILED, FREE). -/
inductive SessionState where
  | created
  | started
  | stopping
  | failed
  | free
deriving DecidableEq, Repr

/-- The `SESSION_VARIABLE` struct: a handler (function pointer, modelled by
an identifier) plus an opaque context pointer (modelled by an identifier). -/
structure SESSION_VARIABLE where
  handler : Nat
  context : Nat
deriving DecidableEq, Repr

/-- The `mxs::Upstream` struct copied by `session_set_response`: a filter
instance pointer, a filter session pointer and a `clientReply` function
pointer, each modelled by an identifier. -/
structure Upstream where
  inst : Nat
  fsession : Nat
  clientReply : Nat
deriving DecidableEq, Repr

/-- The `MXS_SESSION::response` slot: `response.up.instance`,
`response.up.session`, `response.up.clientReply`, `response.buffer` and
`response.service`, each nullable. -/
structure SessionResponse where
  upInstance : Option Nat
  upSession : Option Nat
  upClientReply : Option Nat
  buffer : Option Nat
  service : Option Nat
deriving DecidableEq, Repr

/-- One entry of `QueryInfo::m_server_infos`: the responding server and the
coarse timestamp at which its response was processed. -/
structure ServerInfo where
  pServer : Nat
  processed : Nat
deriving DecidableEq, Repr

/-- The `Session::QueryInfo` record of the query trace ring: a clone of the
query buffer, receive/completion timestamps, the completion flag, and the
per-server response bookkeeping. -/
structure QueryInfo where
  m_sQuery : Nat
  m_received : Nat
  m_completed : Nat
  m_complete : Bool
  m_server_infos : List ServerInfo
deriving DecidableEq, Repr

/-- The session state (fields of `MXS_SESSION` and `Session` that the
session-level operations touch).  `m_variables` is the `std::map` keyed by
the transformed variable name; since `add_variable` only ever inserts a key
that is not present, the association list always has distinct keys and is
observationally the same map.  `backends` models the linked backend-DCB
set. -/
structure Session where
  m_state : SessionState
  refcount : Int
  m_variables : List (List Char × SESSION_VARIABLE)
  response : SessionResponse
  m_retain_last_statements : Nat
  m_last_queries : List QueryInfo
  m_current_query : Int
  m_log : List String
  backends : List Nat
deriving DecidableEq, Repr

/-- Observable side effects of session operations: a write to the client
connection, closing the client DCB, an invocation of the saved upstream
`clientReply` (recording the exact arguments passed), and the
`book_last_as_complete` bookkeeping call. -/
inductive SessionEvent where
  | clientWrite (buf : Nat)
  | closeClientDcb
  | clientReplyCall (inst : Nat) (fsess : Option Nat) (cb : Option Nat) (buf : Option Nat)
  | bookLastComplete
deriving DecidableEq, Repr

/-- A freshly constructed session: state as set by the `MXS_SESSION`
constructor (refcount 1, empty response slot) and the `Session` field
initialisers (`m_current_query = -1`, empty containers).  The state is set
to `started` as after a successful `Session::start`; witnesses adjust
fields as needed. -/
def emptySession : Session :=
  { m_state := SessionState.started
    refcount := 1
    m_variables := []
    response := ⟨none, none, none, none, none⟩
    m_retain_last_statements := 0
    m_last_queries := []
    m_current_query := -1
    m_log := []
    backends := [] }

/-- ASCII `tolower` as used by `std::transform(key, tolower)` on variable
names (the names involved are ASCII). -/
def asciiLower (c : Char) : Char :=
  if 'A' ≤ c ∧ c ≤ 'Z' then Char.ofNat (c.toNat + 32) else c

/-- ASCII `toupper`, used by `Session::remove_variable`. -/
def asciiUpper (c : Char) : Char :=
  if 'a' ≤ c ∧ c ≤ 'z' then Char.ofNat (c.toNat - 32) else c

/-- The `PREFIX` constant `"@MAXSCALE."` of `Session::add_variable`. -/
def varNamePfx : List Char :=
  ['@', 'M', 'A', 'X', 'S', 'C', 'A', 'L', 'E', '.']

/-- The check `strncasecmp(name, PREFIX, sizeof(PREFIX) - 1) == 0`:
the first 10 characters of `name` equal `"@MAXSCALE."` case-insensitively
(a shorter name compares unequal, as the terminating NUL would differ). -/
def hasMaxscalePfx (name : List Char) : Bool :=
  (name.take 10).map asciiLower = varNamePfx.map asciiLower

/-- Association-list lookup for the variable map (`m_variables.find`). -/
def lookupVar : List (List Char × SESSION_VARIABLE) → List Char → Option SESSION_VARIABLE
  | [], _ => none
  | (k, v) :: rest, key => if k = key then some v else lookupVar rest key

/-- Association-list erase for the variable map (`m_variables.erase(it)`);
removes the first binding of `key`. -/
def eraseVar : List (List Char × SESSION_VARIABLE) → List Char → List (List Char × SESSION_VARIABLE)
  | [], _ => []
  | (k, v) :: rest, key => if k = key then rest else (k, v) :: eraseVar rest key

/-- `Session::add_variable(name, handler, context)`: require the
`"@MAXSCALE."` prefix case-insensitively, lowercase the whole name to form
the key, and insert only if the key is not yet present.  Returns the
`added` flag next to the updated session. -/
def Session.add_variable (s : Session) (name : List Char) (handler context : Nat) :
    Bool × Session :=
  if hasMaxscalePfx name then
    let key := name.map asciiLower
    match lookupVar s.m_variables key with
    | some _ => (false, s)
    | none => (true, { s with m_variables := (key, ⟨handler, context⟩) :: s.m_variables })
  else
    (false, s)

/-- `Session::set_variable_value`: lowercase the name and look it up; on a
hit the stored handler is invoked with the stored context.  The model
returns the `SESSION_VARIABLE` whose handler is invoked (`none` models the
"unknown variable" error-message path). -/
def Session.set_variable_value (s : Session) (name : List Char) : Option SESSION_VARIABLE :=
  lookupVar s.m_variables (name.map asciiLower)

/-- `Session::remove_variable(name, context)`: the source transforms the
name with `toupper` before the lookup, erases on a hit and hands back the
stored context.  Returns `(removed, updated session, yielded context)`. -/
def Session.remove_variable (s : Session) (name : List Char) :
    Bool × Session × Option Nat :=
  let key := name.map asciiUpper
  match lookupVar s.m_variables key with
  | some v => (true, { s with m_variables := eraseVar s.m_variables key }, some v.context)
  | none => (false, s, none)

/-- `gwbuf_clone` produces a new buffer with the same content; buffers are
modelled by content identity, so a clone is the buffer itself. -/
def gwbuf_clone (b : Nat) : Nat := b

/-- `session_set_response(session, service, up, buffer)`: the source
unconditionally stores `*up`, `buffer` and `service` into the response
slot.  The only guard is the debug assertion that the slot is empty
(`!response.up.instance && !response.up.session && !response.buffer`);
the returned boolean is that assertion's value (release builds do not
check it). -/
def session_set_response (s : Session) (service : Nat) (up : Upstream) (buffer : Nat) :
    Bool × Session :=
  let assertOk :=
    s.response.upInstance = none ∧ s.response.upSession = none ∧ s.response.buffer = none
  (decide assertOk,
    { s with response :=
        { upInstance := some up.inst
          upSession := some up.fsession
          upClientReply := some up.clientReply
          buffer := some buffer
          service := some service } })

/-- In-place update of the element at a natural index, used to model the
mutation of `*(m_last_queries.begin() + m_current_query)`. -/
def updateAt : List α → Nat → (α → α) → List α
  | [], _, _ => []
  | x :: xs, 0, f => f x :: xs
  | x :: xs, Nat.succ n, f => x :: updateAt xs n f

/-- Update at a signed index.  The source indexes the deque with the signed
`m_current_query` under the debug assertion `m_current_query >= 0`; a
negative index (undefined behaviour in C++) is modelled as leaving the
list unchanged. -/
def updateAtInt (l : List α) (i : Int) (f : α → α) : List α :=
  if 0 ≤ i then updateAt l i.toNat f else l

/-- `Session::QueryInfo::book_server_response`: push `{server, now}` onto
`m_server_infos`, assign the completion flag from `final_response`, and on
completion record `now` as the completion timestamp. -/
def QueryInfo.book_server_response (qi : QueryInfo) (pServer : Nat) (final_response : Bool)
    (now : Nat) : QueryInfo :=
  { qi with
    m_server_infos := qi.m_server_infos ++ [⟨pServer, now⟩]
    m_complete := final_response
    m_completed := if final_response then now else qi.m_completed }

/-- `Session::QueryInfo::book_as_complete`: record the completion time and
set the completion flag. -/
def QueryInfo.book_as_complete (qi : QueryInfo) (now : Nat) : QueryInfo :=
  { qi with m_completed := now, m_complete := true }

/-- `Session::retain_statement(pBuffer)`: when statement retention is
enabled, push a fresh `QueryInfo` holding a clone of the buffer at the
front of the ring, pop the back if the ring exceeds
`m_retain_last_statements`, and advance `m_current_query` (0 when the ring
just became a singleton, incremented otherwise). -/
def Session.retain_statement (s : Session) (pBuffer : Nat) (now : Nat) : Session :=
  if s.m_retain_last_statements ≠ 0 then
    let q : QueryInfo :=
      { m_sQuery := gwbuf_clone pBuffer
        m_received := now
        m_completed := 0
        m_complete := false
        m_server_infos := [] }
    let l1 := q :: s.m_last_queries
    let l2 := if l1.length > s.m_retain_last_statements then l1.dropLast else l1
    let idx := if l2.length = 1 then 0 else s.m_current_query + 1
    { s with m_last_queries := l2, m_current_query := idx }
  else
    s

/-- `Session::book_server_response(pServer, final_response)`: when
retention is enabled and the ring is non-empty, book the response on the
current query only if `m_current_query` is still inside the ring, and on a
final response decrement `m_current_query`. -/
def Session.book_server_response (s : Session) (pServer : Nat) (final_response : Bool)
    (now : Nat) : Session :=
  if s.m_retain_last_statements ≠ 0 ∧ s.m_last_queries ≠ [] then
    let s1 :=
      if s.m_current_query < (s.m_last_queries.length : Int) then
        let l := updateAtInt s.m_last_queries s.m_current_query
          (fun qi => qi.book_server_response pServer final_response now)
        { s with m_last_queries := l }
      else s
    if final_response then { s1 with m_current_query := s1.m_current_query - 1 } else s1
  else
    s

/-- `Session::book_last_as_complete()`: when retention is enabled and the
ring is non-empty, mark the current query complete only if
`m_current_query` is still inside the ring. -/
def Session.book_last_as_complete (s : Session) (now : Nat) : Session :=
  if s.m_retain_last_statements ≠ 0 ∧ s.m_last_queries ≠ [] then
    if s.m_current_query < (s.m_last_queries.length : Int) then
      let l := updateAtInt s.m_last_queries s.m_current_query
        (fun qi => qi.book_as_complete now)
      { s with m_last_queries := l }
    else s
  else
    s

/-- Iterated final-response booking, used to state that a streaming
client's out-of-ring index is clamped back by successive final
responses. -/
def iterBook (pServer now : Nat) : Nat → Session → Session
  | 0, s => s
  | Nat.succ k, s => iterBook pServer now k (s.book_server_response pServer true now)

/-- `MXS_SESSION::terminate(error)`: only a `STARTED` session reacts; it
moves to `STOPPING`, writes the error buffer (if any) to the client
connection, then closes the client DCB.  The event list records the client
write and the close in source order. -/
def Session.terminate (s : Session) (error : Option Nat) : Session × List SessionEvent :=
  if s.m_state = SessionState.started then
    ({ s with m_state := SessionState.stopping },
      (match error with
        | some e => [SessionEvent.clientWrite e]
        | none => []) ++ [SessionEvent.closeClientDcb])
  else
    (s, [])

/-- `Session::clientReply(buffer, down, reply)`: writes a clone of the
buffer to the client connection (`m_client_conn->write(gwbuf_clone(buffer))`). -/
def Session.clientReply (s : Session) (buffer : Nat) : Session × List SessionEvent :=
  (s, [SessionEvent.clientWrite (gwbuf_clone buffer)])

/-- `Session::handleError(error, down, reply)`: forward the error to the
client via `clientReply`, then `terminate()` (with no error buffer), and
return `false`. -/
def Session.handleError (s : Session) (error : Nat) :
    (Session × List SessionEvent) × Bool :=
  let r1 := s.clientReply error
  let r2 := r1.1.terminate none
  ((r2.1, r1.2 ++ r2.2), false)

/-- `Session::deliver_response()`: when `response.up.instance` is set,
invoke the saved `clientReply` with the saved filter instance, filter
session and buffer, null the four slots `up.instance`, `up.session`,
`up.clientReply` and `buffer`, and call `book_last_as_complete` (the
`service` slot is not cleared). -/
def Session.deliver_response (s : Session) (now : Nat) : Session × List SessionEvent :=
  match s.response.upInstance with
  | some inst =>
    let s1 :=
      { s with response :=
          { s.response with
            upInstance := none
            upSession := none
            upClientReply := none
            buffer := none } }
    let s2 := s1.book_last_as_complete now
    (s2,
      [SessionEvent.clientReplyCall inst s.response.upSession s.response.upClientReply
          s.response.buffer,
        SessionEvent.bookLastComplete])
  | none => (s, [])

/-- `Session::routeQuery(buffer)`: forward to the downstream head (here an
explicit function argument standing for `m_down->routeQuery`), then if a
response buffer was queued, deliver it via `deliver_response`; the
downstream return value is passed through. -/
def Session.routeQuery (s : Session) (down : Session → Session × Int) (now : Nat) :
    (Session × List SessionEvent) × Int :=
  let r := down s
  if r.1.response.buffer.isSome then (r.1.deliver_response now, r.2)
  else ((r.1, []), r.2)

/-- `Session::append_session_log(log)`: push the line at the front of
`m_log` and pop the back when the size has reached the configured
`session_trace` depth (the global is passed as the `trace` argument). -/
def Session.append_session_log (s : Session) (trace : Nat) (log : String) : Session :=
  let l := log :: s.m_log
  { s with m_log := if l.length ≥ trace then l.dropLast else l }

/-- `session_link_backend_dcb`: one atomic increment of the session
refcount, then the backend DCB is linked into the session's DCB set. -/
def session_link_backend_dcb (s : Session) (dcb : Nat) : Session :=
  { s with refcount := s.refcount + 1, backends := dcb :: s.backends }

/-- `session_put_ref`: atomically decrement the refcount; the session is
freed exactly when the fetched previous value was 1 (`mxb::atomic::add`
returns the previous value).  Returns the updated session and whether
`session_free` ran. -/
def session_put_ref (s : Session) : Session × Bool :=
  ({ s with refcount := s.refcount - 1 }, s.refcount = 1)

/-- `session_unlink_backend_dcb`: unlink the backend DCB from the
session's DCB set, then drop one reference via `session_put_ref`. -/
def session_unlink_backend_dcb (s : Session) (dcb : Nat) : Session × Bool :=
  session_put_ref { s with backends := s.backends.erase dcb }

/-- A buffer in the DCB section is a byte list, so that `gwbuf_append`
(chain concatenation) is expressible. -/
abbrev GWBUF := List Nat

/-- `gwbuf_append(head, tail)`: chains the two buffers. -/
def gwbuf_append (a b : GWBUF) : GWBUF :=
  a ++ b

/-- The DCB fields relevant to the read queue, plus instrumentation:
`freed` lists the buffers handed to `gwbuf_free`, and `error_logged`
counts `MXS_ERROR` firings. -/
structure DCB where
  m_readq : Option GWBUF
  freed : List GWBUF
  error_logged : Nat
deriving DecidableEq, Repr

/-- `DCB::readq_set(buffer)`: the debug assertion expects no existing read
queue; when one exists only an error is logged (the `gwbuf_free` call is
commented out in the source), and in all cases `m_readq` is assigned the
supplied buffer, silently dropping any previous queue. -/
def DCB.readq_set (d : DCB) (buffer : GWBUF) : DCB :=
  if d.m_readq.isSome then
    { d with error_logged := d.error_logged + 1, m_readq := some buffer }
  else
    { d with m_readq := some buffer }

/-- `DCB::readq_append(buffer)`: `m_readq = gwbuf_append(m_readq, buffer)`
(an absent queue behaves as the empty chain). -/
def DCB.readq_append (d : DCB) (buffer : GWBUF) : DCB :=
  { d with m_readq := some (gwbuf_append (d.m_readq.getD ([] : List Nat)) buffer) }

/-- The concrete variable name `"@MAXSCALE.test"` used to evaluate the
variable operations. -/
def testVarName : List Char :=
  ['@', 'M', 'A', 'X', 'S', 'C', 'A', 'L', 'E', '.', 't', 'e', 's', 't']

/-- A concrete downstream that short-circuits the routing: it queues a
response (service 3, upstream `⟨1, 2, 9⟩`, buffer 5) and reports success. -/
def downSetsResponse : Session → Session × Int :=
  fun s => ((session_set_response s 3 ⟨1, 2, 9⟩ 5).2, 1)

/-- The session state right after `downSetsResponse emptySession`. -/
def responseSetSession : Session :=
  (session_set_response emptySession 3 ⟨1, 2, 9⟩ 5).2

/-- A concrete session whose query ring is full (retention depth 2, two
retained queries). -/
def fullRingSession : Session :=
  { emptySession with
    m_retain_last_statements := 2
    m_last_queries := [⟨1, 0, 0, false, []⟩, ⟨2, 0, 0, false, []⟩]
    m_current_query := 1 }

/-- A concrete session of a streaming client: one retained query but a
current-query index that has grown past the ring end. -/
def streamingSession : Session :=
  { emptySession with
    m_retain_last_statements := 1
    m_last_queries := [⟨0, 0, 0, false, []⟩]
    m_current_query := 3 }

/-- A concrete DCB that already holds a non-empty read queue. -/
def busyDcb : DCB :=
  { m_readq := some [1, 2, 3], freed := [], error_logged := 0 }

end MaxScale

namespace MaxScale

/-! Theorems.  Helper lemmas come first, then one theorem per claim with
its witness or counterexample. -/

theorem book_last_response_eq (s : Session) (now : Nat) :
    (s.book_last_as_complete now).response = s.response := by
  unfold Session.book_last_as_complete
  split
  · split <;> rfl
  · rfl

/-- C1: session variables are stored lowercased, but `remove_variable`
uppercases the name before the lookup; on the concrete valid name
`"@MAXSCALE.test"` the addition succeeds and `set_variable_value` finds
the stored handler under the same name, yet `remove_variable` with the
very same name (a case variant of itself) fails, contradicting
case-insensitive removal. -/
theorem c1_remove_variable_bug :
    (emptySession.add_variable testVarName 7 42).1 = true ∧
    (emptySession.add_variable testVarName 7 42).2.set_variable_value testVarName
      = some ⟨7, 42⟩ ∧
    ((emptySession.add_variable testVarName 7 42).2.remove_variable testVarName).1 = false := by
  decide

/-- C2 counterexample: a second `session_set_response` before the queued
response is delivered does not leave the stored response unchanged — it
overwrites the slot with the new triple. -/
theorem c2_set_response_overwrites :
    ((session_set_response (session_set_response emptySession 0 ⟨1, 2, 3⟩ 10).2
        0 ⟨4, 5, 6⟩ 20).2).response
      ≠ ((session_set_response emptySession 0 ⟨1, 2, 3⟩ 10).2).response := by
  decide

/-- C2 amended: the first `session_set_response` on an empty slot passes
the debug assertion and stores the (up, buffer, service) triple; a second
call before delivery fails the debug assertion (release builds do not
check it) and overwrites the stored response with the new triple. -/
theorem c2_set_response_amended (s : Session) (svc1 svc2 : Nat) (u1 u2 : Upstream)
    (b1 b2 : Nat)
    (h1 : s.response.upInstance = none) (h2 : s.response.upSession = none)
    (h3 : s.response.buffer = none) :
    (session_set_response s svc1 u1 b1).1 = true ∧
    (session_set_response s svc1 u1 b1).2.response =
      ⟨some u1.inst, some u1.fsession, some u1.clientReply, some b1, some svc1⟩ ∧
    (session_set_response (session_set_response s svc1 u1 b1).2 svc2 u2 b2).1 = false ∧
    (session_set_response (session_set_response s svc1 u1 b1).2 svc2 u2 b2).2.response =
      ⟨some u2.inst, some u2.fsession, some u2.clientReply, some b2, some svc2⟩ := by
  refine ⟨?_, rfl, ?_, rfl⟩
  · simp [session_set_response, h1, h2, h3]
  · simp [session_set_response]

theorem c2_set_response_amended_witness :
    (session_set_response emptySession 0 ⟨1, 2, 3⟩ 10).1 = true ∧
    (session_set_response emptySession 0 ⟨1, 2, 3⟩ 10).2.response =
      ⟨some 1, some 2, some 3, some 10, some 0⟩ ∧
    (session_set_response (session_set_response emptySession 0 ⟨1, 2, 3⟩ 10).2
        0 ⟨4, 5, 6⟩ 20).1 = false ∧
    (session_set_response (session_set_response emptySession 0 ⟨1, 2, 3⟩ 10).2
        0 ⟨4, 5, 6⟩ 20).2.response = ⟨some 4, some 5, some 6, some 20, some 0⟩ :=
  c2_set_response_amended emptySession 0 0 ⟨1, 2, 3⟩ ⟨4, 5, 6⟩ 10 20 rfl rfl rfl

/-- C4: `MXS_SESSION::terminate` is a no-op whenever the session state is
not Started; when Started it sets the state to Stopping, writes the error
buffer (if one was given) to the client connection before closing, and
closes the client DCB. -/
theorem c4_terminate_spec (s : Session) (error : Option Nat) :
    (s.m_state ≠ SessionState.started → s.terminate error = (s, [])) ∧
    (s.m_state = SessionState.started →
      (s.terminate error).1 = { s with m_state := SessionState.stopping } ∧
      (s.terminate error).2 =
        error.toList.map SessionEvent.clientWrite ++ [SessionEvent.closeClientDcb]) := by
  constructor
  · intro h
    simp [Session.terminate, h]
  · intro h
    cases error <;> simp [Session.terminate, h]

theorem c4_terminate_spec_witness :
    ({ emptySession with m_state := SessionState.created }.terminate (some 5)
        = ({ emptySession with m_state := SessionState.created }, [])) ∧
    (emptySession.terminate (some 5)).1
        = { emptySession with m_state := SessionState.stopping } ∧
    (emptySession.terminate (some 5)).2
        = [SessionEvent.clientWrite 5, SessionEvent.closeClientDcb] :=
  ⟨(c4_terminate_spec { emptySession with m_state := SessionState.created } (some 5)).1
      (by decide),
    ((c4_terminate_spec emptySession (some 5)).2 rfl).1,
    ((c4_terminate_spec emptySession (some 5)).2 rfl).2⟩

/-- C5: `Session::handleError` first forwards the error to the client via
`clientReply`, then terminates the session, and always returns false. -/
theorem c5_handleError_spec (s : Session) (error : Nat) :
    (s.handleError error).2 = false ∧
    (s.handleError error).1.2 =
      SessionEvent.clientWrite (gwbuf_clone error) :: (s.terminate none).2 ∧
    (s.handleError error).1.1 = (s.terminate none).1 := by
  refine ⟨rfl, ?_, rfl⟩
  simp [Session.handleError, Session.clientReply]

/-- C9: `session_link_backend_dcb` increments the refcount by exactly one,
`session_unlink_backend_dcb` decrements it by exactly one, and
`session_put_ref` frees the session exactly when the decrement takes the
refcount from one to zero — so a freed session has refcount zero and a
session left with a positive refcount was not freed. -/
theorem c9_refcount_spec (s : Session) (dcb : Nat) :
    (session_link_backend_dcb s dcb).refcount = s.refcount + 1 ∧
    (session_unlink_backend_dcb s dcb).1.refcount = s.refcount - 1 ∧
    ((session_put_ref s).2 = true ↔ s.refcount = 1) ∧
    ((session_put_ref s).2 = true → (session_put_ref s).1.refcount = 0) ∧
    (0 < (session_put_ref s).1.refcount → (session_put_ref s).2 = false) := by
  refine ⟨rfl, rfl, ?_, ?_, ?_⟩
  · simp [session_put_ref]
  · intro h
    simp only [session_put_ref, decide_eq_true_eq] at h
    simp [session_put_ref, h]
  · intro h
    simp only [session_put_ref] at h ⊢
    simp only [decide_eq_false_iff_not]
    omega

theorem c9_refcount_spec_witness :
    (session_link_backend_dcb emptySession 4).refcount = emptySession.refcount + 1 ∧
    (session_put_ref emptySession).2 = true ∧
    (session_put_ref emptySession).1.refcount = 0 :=
  ⟨(c9_refcount_spec emptySession 4).1,
    (c9_refcount_spec emptySession 4).2.2.1.mpr rfl,
    (c9_refcount_spec emptySession 4).2.2.2.1
      ((c9_refcount_spec emptySession 4).2.2.1.mpr rfl)⟩

/-- C10: `DCB::readq_set` on a DCB that already has a read queue replaces
the queue with exactly the supplied buffer: the previous queue is not
freed and not concatenated with the new buffer, and only an error log
(plus the debug assertion) fires. -/
theorem c10_readq_set_spec (d : DCB) (q buf : GWBUF)
    (hq : d.m_readq = some q) (hne : q ≠ []) :
    (d.readq_set buf).m_readq = some buf ∧
    (d.readq_set buf).freed = d.freed ∧
    (d.readq_set buf).error_logged = d.error_logged + 1 ∧
    (d.readq_set buf).m_readq ≠ some (gwbuf_append q buf) := by
  have hsome : d.m_readq.isSome = true := by rw [hq]; rfl
  refine ⟨?_, ?_, ?_, ?_⟩
  · simp [DCB.readq_set, hsome]
  · simp [DCB.readq_set, hsome]
  · simp [DCB.readq_set, hsome]
  · simp only [DCB.readq_set, hsome, if_pos]
    intro hcontra
    have hbuf : buf = gwbuf_append q buf := by
      simpa using hcontra
    have hlen : buf.length = q.length + buf.length := by
      conv_lhs => rw [hbuf]
      simp [gwbuf_append]
    have : q.length = 0 := by omega
    exact hne (List.eq_nil_of_length_eq_zero this)

theorem c10_readq_set_spec_witness :
    (busyDcb.readq_set [9]).m_readq = some [9] ∧
    (busyDcb.readq_set [9]).freed = busyDcb.freed ∧
    (busyDcb.readq_set [9]).error_logged = busyDcb.error_logged + 1 ∧
    (busyDcb.readq_set [9]).m_readq ≠ some (gwbuf_append [1, 2, 3] [9]) :=
  c10_readq_set_spec busyDcb [1, 2, 3] [9] rfl (by decide)

end MaxScale

namespace MaxScale

theorem dropLast_cons_ne_nil (a : α) (l : List α) (h : l ≠ []) :
    (a :: l).dropLast = a :: l.dropLast := by
  cases l with
  | nil => exact absurd rfl h
  | cons b t => rfl

/-- C3: after a filter short-circuited routing by queuing a response,
`routeQuery` delivers it: the saved upstream `clientReply` is invoked
exactly once with exactly the stored buffer, the four response slots
(instance, session, clientReply, buffer) are reset to null, and
`book_last_as_complete` runs before the call returns (so before the next
query can be accepted); the downstream return value is passed through. -/
theorem c3_routeQuery_delivers (s0 s1 : Session) (down : Session → Session × Int)
    (rv : Int) (now inst fs cb b : Nat)
    (hdown : down s0 = (s1, rv))
    (hi : s1.response.upInstance = some inst)
    (hs : s1.response.upSession = some fs)
    (hc : s1.response.upClientReply = some cb)
    (hb : s1.response.buffer = some b) :
    (s0.routeQuery down now).2 = rv ∧
    (s0.routeQuery down now).1.2 =
      [SessionEvent.clientReplyCall inst (some fs) (some cb) (some b),
        SessionEvent.bookLastComplete] ∧
    (s0.routeQuery down now).1.1.response =
      ⟨none, none, none, none, s1.response.service⟩ ∧
    (s0.routeQuery down now).1.1 =
      Session.book_last_as_complete
        { s1 with response := ⟨none, none, none, none, s1.response.service⟩ } now := by
  have hroute : s0.routeQuery down now = (s1.deliver_response now, rv) := by
    unfold Session.routeQuery
    rw [hdown]
    dsimp only
    rw [if_pos (by rw [hb]; rfl)]
  have hdel : s1.deliver_response now =
      (Session.book_last_as_complete
          { s1 with response := ⟨none, none, none, none, s1.response.service⟩ } now,
        [SessionEvent.clientReplyCall inst (some fs) (some cb) (some b),
          SessionEvent.bookLastComplete]) := by
    simp only [Session.deliver_response, hi, hs, hc, hb]
  rw [hroute, hdel]
  exact ⟨rfl, rfl, by rw [book_last_response_eq], rfl⟩

theorem c3_routeQuery_delivers_witness :
    (emptySession.routeQuery downSetsResponse 0).2 = 1 ∧
    (emptySession.routeQuery downSetsResponse 0).1.2 =
      [SessionEvent.clientReplyCall 1 (some 2) (some 9) (some 5),
        SessionEvent.bookLastComplete] ∧
    (emptySession.routeQuery downSetsResponse 0).1.1.response =
      ⟨none, none, none, none, responseSetSession.response.service⟩ ∧
    (emptySession.routeQuery downSetsResponse 0).1.1 =
      Session.book_last_as_complete
        { responseSetSession with
          response := ⟨none, none, none, none, responseSetSession.response.service⟩ } 0 :=
  c3_routeQuery_delivers emptySession responseSetSession downSetsResponse 1 0 1 2 9 5
    rfl rfl rfl rfl rfl

theorem retain_retain_eq (s : Session) (b t : Nat) :
    (s.retain_statement b t).m_retain_last_statements = s.m_retain_last_statements := by
  unfold Session.retain_statement
  split <;> rfl

theorem ring_push_len (q : QueryInfo) (l : List QueryInfo) (N : Nat) (h : l.length ≤ N) :
    (if (q :: l).length > N then (q :: l).dropLast else q :: l).length ≤ N := by
  split
  · simp only [List.length_dropLast, List.length_cons]
    omega
  · rename_i h2
    simp only [List.length_cons] at h2 ⊢
    omega

theorem retain_len_le (s : Session) (b t : Nat)
    (h : s.m_last_queries.length ≤ s.m_retain_last_statements) :
    (s.retain_statement b t).m_last_queries.length ≤ s.m_retain_last_statements := by
  unfold Session.retain_statement
  split
  · dsimp only
    exact ring_push_len _ _ _ h
  · exact h

theorem retain_fold_retain_eq (bs : List (Nat × Nat)) :
    ∀ s : Session,
      (bs.foldl (fun st p => st.retain_statement p.1 p.2) s).m_retain_last_statements =
        s.m_retain_last_statements := by
  induction bs with
  | nil => intro s; rfl
  | cons p rest ih =>
    intro s
    simp only [List.foldl_cons]
    rw [ih, retain_retain_eq]

theorem retain_fold_len_le (bs : List (Nat × Nat)) :
    ∀ s : Session, s.m_last_queries.length ≤ s.m_retain_last_statements →
      (bs.foldl (fun st p => st.retain_statement p.1 p.2) s).m_last_queries.length ≤
        s.m_retain_last_statements := by
  induction bs with
  | nil => intro s h; simpa using h
  | cons p rest ih =>
    intro s h
    simp only [List.foldl_cons]
    have h2 : (s.retain_statement p.1 p.2).m_last_queries.length ≤
        (s.retain_statement p.1 p.2).m_retain_last_statements := by
      rw [retain_retain_eq]
      exact retain_len_le s p.1 p.2 h
    have := ih (s.retain_statement p.1 p.2) h2
    rwa [retain_retain_eq] at this

/-- C6: with effective retention depth `N`, any sequence of
`retain_statement` calls keeps the query ring at most `N` long; with
`N = 0` nothing is stored; and a `retain_statement` on a full ring evicts
the oldest entry (the back of the deque) while pushing the new query at
the front. -/
theorem c6_retain_ring_bounded (s : Session) (N : Nat)
    (hN : s.m_retain_last_statements = N)
    (hlen : s.m_last_queries.length ≤ N) :
    (∀ bs : List (Nat × Nat),
      (bs.foldl (fun st p => st.retain_statement p.1 p.2) s).m_last_queries.length ≤ N) ∧
    (N = 0 → ∀ b t, s.retain_statement b t = s) ∧
    (s.m_last_queries.length = N → 0 < N → ∀ b t,
      (s.retain_statement b t).m_last_queries =
        (⟨gwbuf_clone b, t, 0, false, []⟩ : QueryInfo) :: s.m_last_queries.dropLast) := by
  refine ⟨?_, ?_, ?_⟩
  · intro bs
    have := retain_fold_len_le bs s (by rw [hN]; exact hlen)
    rwa [hN] at this
  · intro h0 b t
    unfold Session.retain_statement
    rw [if_neg (by simp [hN, h0])]
  · intro hfull hpos b t
    have hne : s.m_last_queries ≠ [] := by
      intro hnil
      rw [hnil] at hfull
      simp at hfull
      omega
    have h1 : s.m_retain_last_statements ≠ 0 := by omega
    unfold Session.retain_statement
    rw [if_pos h1]
    dsimp only
    rw [if_pos (by simp [hfull, hN])]
    exact dropLast_cons_ne_nil _ _ hne

theorem c6_retain_ring_bounded_witness :
    (([(1, 1), (2, 2), (3, 3)] : List (Nat × Nat)).foldl
        (fun st p => st.retain_statement p.1 p.2) fullRingSession).m_last_queries.length
      ≤ 2 ∧
    (fullRingSession.retain_statement 9 9).m_last_queries =
      (⟨gwbuf_clone 9, 9, 0, false, []⟩ : QueryInfo) :: fullRingSession.m_last_queries.dropLast :=
  ⟨(c6_retain_ring_bounded fullRingSession 2 rfl (by decide)).1 [(1, 1), (2, 2), (3, 3)],
    (c6_retain_ring_bounded fullRingSession 2 rfl (by decide)).2.2 rfl (by decide) 9 9⟩

end MaxScale

namespace MaxScale

theorem take_append_take (n : Nat) (a b : List String) :
    (a ++ b.take n).take n = (a ++ b).take n := by
  rw [List.take_append_eq_append_take, List.take_append_eq_append_take, List.take_take]
  rw [Nat.min_eq_left (Nat.sub_le _ _)]

theorem append_log_step (s : Session) (N : Nat) (x : String) (hN : 0 < N)
    (hlen : s.m_log.length ≤ N - 1) :
    (s.append_session_log N x).m_log = (x :: s.m_log).take (N - 1) := by
  unfold Session.append_session_log
  dsimp only
  split
  · rename_i hge
    rw [List.dropLast_eq_take]
    simp only [List.length_cons] at hge ⊢
    congr 1
    omega
  · rename_i hlt
    simp only [List.length_cons] at hlt
    rw [List.take_of_length_le]
    simp only [List.length_cons]
    omega

theorem append_log_fold (N : Nat) (hN : 0 < N) (ls : List String) :
    ∀ s : Session, s.m_log.length ≤ N - 1 →
      (ls.foldl (fun st l => st.append_session_log N l) s).m_log =
        ((ls.reverse ++ s.m_log).take (N - 1)) := by
  induction ls with
  | nil =>
    intro s h
    simp only [List.foldl_nil, List.reverse_nil, List.nil_append]
    rw [List.take_of_length_le h]
  | cons x rest ih =>
    intro s h
    simp only [List.foldl_cons]
    have hstep := append_log_step s N x hN h
    have hlen2 : (s.append_session_log N x).m_log.length ≤ N - 1 := by
      rw [hstep, List.length_take]
      exact Nat.min_le_left _ _
    rw [ih (s.append_session_log N x) hlen2, hstep]
    rw [take_append_take]
    rw [List.reverse_cons, List.append_assoc]
    rfl

theorem book_out_of_ring (s : Session) (pServer now : Nat) (fin : Bool)
    (hr : s.m_retain_last_statements ≠ 0) (hq : s.m_last_queries ≠ [])
    (hlen : (s.m_last_queries.length : Int) ≤ s.m_current_query) :
    s.book_server_response pServer fin now =
      if fin then { s with m_current_query := s.m_current_query - 1 } else s := by
  unfold Session.book_server_response
  rw [if_pos ⟨hr, hq⟩]
  dsimp only
  rw [if_neg (not_lt.mpr hlen)]

theorem book_last_out_of_ring (s : Session) (now : Nat)
    (hlen : (s.m_last_queries.length : Int) ≤ s.m_current_query) :
    s.book_last_as_complete now = s := by
  unfold Session.book_last_as_complete
  split
  · rw [if_neg (not_lt.mpr hlen)]
  · rfl

theorem iterBook_spec (pServer now : Nat) :
    ∀ (k : Nat) (s : Session), s.m_retain_last_statements ≠ 0 → s.m_last_queries ≠ [] →
      (k : Int) ≤ s.m_current_query - (s.m_last_queries.length : Int) + 1 →
      (s.m_last_queries.length : Int) ≤ s.m_current_query →
      (iterBook pServer now k s).m_last_queries = s.m_last_queries ∧
      (iterBook pServer now k s).m_current_query = s.m_current_query - k := by
  intro k
  induction k with
  | zero =>
    intro s _ _ _ _
    exact ⟨rfl, by simp [iterBook]⟩
  | succ k ih =>
    intro s hr hq hK hlen
    have hstep : s.book_server_response pServer true now =
        { s with m_current_query := s.m_current_query - 1 } := by
      rw [book_out_of_ring s pServer now true hr hq hlen]
      exact if_pos rfl
    have hunf : iterBook pServer now (k + 1) s =
        iterBook pServer now k { s with m_current_query := s.m_current_query - 1 } := by
      show iterBook pServer now k (s.book_server_response pServer true now) = _
      rw [hstep]
    cases k with
    | zero =>
      rw [hunf]
      refine ⟨rfl, ?_⟩
      simp only [iterBook]
      push_cast
      omega
    | succ k2 =>
      have hlen2 : (({ s with m_current_query := s.m_current_query - 1 } : Session).m_last_queries.length : Int) ≤
          ({ s with m_current_query := s.m_current_query - 1 } : Session).m_current_query := by
        show (s.m_last_queries.length : Int) ≤ s.m_current_query - 1
        push_cast at hK
        omega
      have hK2 : ((k2 + 1 : Nat) : Int) ≤
          ({ s with m_current_query := s.m_current_query - 1 } : Session).m_current_query -
            (({ s with m_current_query := s.m_current_query - 1 } : Session).m_last_queries.length : Int) + 1 := by
        show ((k2 + 1 : Nat) : Int) ≤ s.m_current_query - 1 - (s.m_last_queries.length : Int) + 1
        push_cast at hK ⊢
        omega
      obtain ⟨h1, h2⟩ := ih { s with m_current_query := s.m_current_query - 1 } hr hq hK2 hlen2
      rw [hunf]
      refine ⟨h1, ?_⟩
      rw [h2]
      show s.m_current_query - 1 - ((k2 + 1 : Nat) : Int) = s.m_current_query - ((k2 + 1 + 1 : Nat) : Int)
      push_cast
      ring

/-- C7 counterexample: with `session_trace = 1` a single
`append_session_log` leaves the log empty, not `min 1 1 = 1` lines — the
pop condition `m_log.size() >= session_trace` fires already at depth
`N`, so the ring retains at most `N - 1` lines. -/
theorem c7_session_log_counterexample :
    ¬ ((emptySession.append_session_log 1 "a").m_log.length = min 1 1) := by
  decide

/-- C7 amended: with the session_trace depth configured to `N > 0`, after
appending the lines `ls` (in order) to a session whose log started empty,
the log holds exactly the `min (ls.length) (N - 1)` most recently appended
lines, the most recent first: it equals `ls.reverse.take (N - 1)`. -/
theorem c7_session_log_amended (s : Session) (N : Nat) (hN : 0 < N)
    (hlog : s.m_log = []) :
    ∀ ls : List String,
      (ls.foldl (fun st l => st.append_session_log N l) s).m_log =
        ls.reverse.take (N - 1) := by
  intro ls
  rw [append_log_fold N hN ls s (by simp [hlog])]
  rw [hlog, List.append_nil]

theorem c7_session_log_amended_witness :
    ((["a", "b", "c", "d"] : List String).foldl
        (fun st l => st.append_session_log 3 l) emptySession).m_log =
      (["a", "b", "c", "d"] : List String).reverse.take (3 - 1) :=
  c7_session_log_amended emptySession 3 (by decide) rfl ["a", "b", "c", "d"]

/-- C8: for a streaming client whose current-query index has grown to or
beyond the query ring length, `book_server_response` and
`book_last_as_complete` access no `QueryInfo` entry (the ring is left
untouched), a final response decrements the index while a non-final one
leaves it unchanged, and iterating final-response bookings brings the
index back toward the ring without it ever dropping below -1. -/
theorem c8_streaming_clamp (s : Session) (pServer now : Nat) (fin : Bool)
    (hr : s.m_retain_last_statements ≠ 0)
    (hq : s.m_last_queries ≠ [])
    (hidx : (s.m_last_queries.length : Int) ≤ s.m_current_query) :
    (s.book_server_response pServer fin now).m_last_queries = s.m_last_queries ∧
    s.book_last_as_complete now = s ∧
    (s.book_server_response pServer true now).m_current_query = s.m_current_query - 1 ∧
    (s.book_server_response pServer false now).m_current_query = s.m_current_query ∧
    (∀ k : Nat, (k : Int) ≤ s.m_current_query - (s.m_last_queries.length : Int) + 1 →
      (iterBook pServer now k s).m_last_queries = s.m_last_queries ∧
      (iterBook pServer now k s).m_current_query = s.m_current_query - k ∧
      -1 ≤ (iterBook pServer now k s).m_current_query) := by
  refine ⟨?_, book_last_out_of_ring s now hidx, ?_, ?_, ?_⟩
  · rw [book_out_of_ring s pServer now fin hr hq hidx]
    cases fin
    · rfl
    · rw [if_pos rfl]
  · rw [book_out_of_ring s pServer now true hr hq hidx, if_pos rfl]
  · rw [book_out_of_ring s pServer now false hr hq hidx]
    rfl
  · intro k hk
    obtain ⟨h1, h2⟩ := iterBook_spec pServer now k s hr hq hk hidx
    refine ⟨h1, h2, ?_⟩
    rw [h2]
    have hpos : 0 < s.m_last_queries.length := List.length_pos.mpr hq
    omega

theorem c8_streaming_clamp_witness :
    (streamingSession.book_server_response 5 true 7).m_current_query =
      streamingSession.m_current_query - 1 ∧
    streamingSession.book_last_as_complete 7 = streamingSession ∧
    (iterBook 5 7 3 streamingSession).m_last_queries = streamingSession.m_last_queries ∧
    (iterBook 5 7 3 streamingSession).m_current_query =
      streamingSession.m_current_query - ((3 : Nat) : Int) ∧
    -1 ≤ (iterBook 5 7 3 streamingSession).m_current_query :=
  ⟨(c8_streaming_clamp streamingSession 5 7 true (by decide) (by decide) (by decide)).2.2.1,
    (c8_streaming_clamp streamingSession 5 7 true (by decide) (by decide) (by decide)).2.1,
    ((c8_streaming_clamp streamingSession 5 7 true (by decide) (by decide)
        (by decide)).2.2.2.2 3 (by decide)).1,
    ((c8_streaming_clamp streamingSession 5 7 true (by decide) (by decide)
        (by decide)).2.2.2.2 3 (by decide)).2.1,
    ((c8_streaming_clamp streamingSession 5 7 true (by decide) (by decide)
        (by decide)).2.2.2.2 3 (by decide)).2.2⟩


end MaxScale
